import Mathlib

/-!
Verification development for the rolldown-mdx repository.

This file gives a shallow embedding of the bespoke logic of the repository:
the in-memory module resolver (`src/index.ts`, `resolveId` / `findPathWithExt`),
the post-bundle import/export rewriter (`src/plugins/transform.ts`),
the bundling orchestrator's error collection (`src/index.ts`, `bundleMDX`),
the runtime component loader (`src/client/jsx.ts`), and the framework preset
merging (`src/framework-config.ts` together with the framework-aware
`bundleMDX` variant).  JavaScript strings are modelled as Lean `String`,
JavaScript objects used as string-keyed dictionaries as association lists
with JavaScript assignment semantics, and the oxc AST at the granularity the
transform inspects it (node type tags, import specifiers, export wrappers).
-/

namespace RolldownMdx

/-! ## String utilities (character-list based, kernel-reducible) -/

/-- Split a character list on a separator character, keeping empty groups
(the semantics of `String.splitOn` for a one-character separator). -/
def chSplit (sep : Char) : List Char → List (List Char)
  | [] => [[]]
  | c :: rest =>
    let r := chSplit sep rest
    if c = sep then [] :: r
    else
      match r with
      | [] => [[c]]
      | g :: gs => (c :: g) :: gs

/-- Decide whether `pat` occurs at the head of `l`. -/
def listPre : List Char → List Char → Bool
  | [], _ => true
  | _ :: _, [] => false
  | a :: as, b :: bs => a = b && listPre as bs

/-- Decide whether `pat` occurs as a contiguous sublist of `l`
(the model of JavaScript `String.prototype.includes`). -/
def listInf (pat : List Char) : List Char → Bool
  | [] => pat.isEmpty
  | c :: rest => listPre pat (c :: rest) || listInf pat rest

/-- Model of JavaScript `s.includes(pat)`. -/
def strContainsB (s pat : String) : Bool :=
  listInf pat.data s.data

/-- Substring occurrence as a proposition, stated on character data. -/
def containsStr (s pat : String) : Prop :=
  ∃ l r, s.data = l ++ pat.data ++ r

/-- Suffix occurrence as a proposition, stated on character data. -/
def endsWithStr (s suf : String) : Prop :=
  ∃ l, s.data = l ++ suf.data

theorem strDataAppend (a b : String) : (a ++ b).data = a.data ++ b.data := by
  cases a; cases b; rfl

/-! ## Path model (POSIX-style, as implemented by the `pathe` library) -/

/-- Path segments of a string: split on `/` and drop empty segments. -/
def segsOf (s : String) : List String :=
  ((chSplit '/' s.data).filter (fun g => !g.isEmpty)).map (fun g => ⟨g⟩)

/-- Whether a path string is absolute. -/
def isAbs (s : String) : Bool :=
  match s.data with
  | '/' :: _ => true
  | _ => false

/-- Normalize a segment list: drop `.` segments and let `..` cancel the
previous segment (at the root, `..` is a no-op, as in POSIX resolution). -/
def normSegs (l : List String) : List String :=
  l.foldl
    (fun acc seg =>
      if seg = "." then acc
      else if seg = ".." then acc.dropLast
      else acc ++ [seg])
    []

/-- Join segments with `/`. -/
def joinSlash : List String → String
  | [] => ""
  | [s] => s
  | s :: rest => s ++ "/" ++ joinSlash rest

/-- Model of `pathe.resolve(base, id)` for an absolute `base`: an absolute
`id` stands alone, a relative one is joined onto `base`; the result is
normalized. -/
def resolvePath (base id : String) : String :=
  let raw := if isAbs id then id else base ++ "/" ++ id
  "/" ++ joinSlash (normSegs (segsOf raw))

/-- Model of `pathe.dirname` on an absolute path. -/
def dirnamePath (p : String) : String :=
  match (segsOf p).dropLast with
  | [] => "/"
  | l => "/" ++ joinSlash l

/-- Model of `pathe.extname`: the dotted extension of the final path
segment, empty for dotless or dotfile basenames. -/
def extnamePath (p : String) : String :=
  let base : String := ((segsOf p).getLast?).getD ""
  let parts := chSplit '.' base.data
  match parts with
  | [] => ""
  | [_] => ""
  | [[], _] => ""
  | _ => "." ++ (⟨(parts.getLast?).getD []⟩ : String)

/-! ## JavaScript string-keyed object model -/

/-- First-match lookup in an association list (own-property read). -/
def lookupKey : List (String × String) → String → Option String
  | [], _ => none
  | (k, v) :: rest, key => if k = key then some v else lookupKey rest key

/-- Model of `Object.prototype.hasOwnProperty.call(m, key)`. -/
def hasKey (m : List (String × String)) (key : String) : Bool :=
  (lookupKey m key).isSome

/-- JavaScript property assignment `m[k] = v`: overwrite in place if the key
exists (keeping its position), otherwise append. -/
def setKey : List (String × String) → String → String → List (String × String)
  | [], k, v => [(k, v)]
  | (k', v') :: rest, k, v =>
    if k' = k then (k, v) :: rest else (k', v') :: setKey rest k v

/-- Model of the object spread `\x7b ...a, ...b \x7d`: assign every entry of
`b` onto `a`, in order. -/
def assignAll (a b : List (String × String)) : List (String × String) :=
  b.foldl (fun acc p => setKey acc p.1 p.2) a

/-- Model of the `processedFiles` construction in `bundleMDX`: each
caller-relative key is resolved against `cwd` and assigned into a fresh
object. -/
def processFiles (cwd : String) (files : List (String × String)) :
    List (String × String) :=
  files.foldl (fun acc p => setKey acc (resolvePath cwd p.1) p.2) []

/-! ## Virtual module resolver (`src/index.ts`, in-memory plugin) -/

/-- Base-directory selection of `resolveId` (`src/index.ts` lines 165-174):
JavaScript tests `if (importer)`, so an absent or empty importer falls back
to `cwd`; the entry sentinel importer uses the directory of the entry
document's synthetic path; any other importer uses its own directory. -/
def chooseBaseDir (entry vpath cwd : String) (importer : Option String) :
    String :=
  match importer with
  | none => cwd
  | some imp =>
    if imp = "" then cwd
    else if imp = entry then dirnamePath vpath
    else dirnamePath imp

/-- Model of `findPathWithExt` (`src/index.ts` lines 133-149): try each
extension in order and return the first augmented path that is a key of the
in-memory file table. -/
def findPathWithExt : String → List String → List (String × String) →
    Option String
  | _, [], _ => none
  | basePath, ext :: rest, filesMap =>
    if hasKey filesMap (basePath ++ ext) then some (basePath ++ ext)
    else findPathWithExt basePath rest filesMap

/-- Model of the in-memory plugin's `resolveId` (`src/index.ts` lines
153-212): entry-sentinel check first, then base-directory selection, path
join, direct key lookup, and extension probing for extensionless paths. -/
def resolveId (entry vpath cwd : String) (exts : List String)
    (files : List (String × String)) (id : String)
    (importer : Option String) : Option String :=
  if id = entry ∨ id = "./" ++ entry then
    some entry
  else
    let baseDir := chooseBaseDir entry vpath cwd importer
    let resolvedImportPath := resolvePath baseDir id
    if hasKey files resolvedImportPath then
      some resolvedImportPath
    else if extnamePath resolvedImportPath = "" then
      match findPathWithExt resolvedImportPath exts files with
      | some p => some p
      | none => none
    else
      none

/-- Modelled from the spec's words for the refinement claim about
`resolve`: base directory per the claim — the configured working directory
when there is no (usable) importer, the directory of the entry document's
synthetic path when the importer is the entry sentinel, and the importer's
own directory otherwise.  "No importer" is read as a JavaScript-falsy
importer (absent or the empty string), matching the plugin interface in
which an empty importer never denotes a real module. -/
def specBaseDir (entry vpath cwd : String) (importer : Option String) :
    String :=
  if importer = none ∨ importer = some "" then cwd
  else if importer = some entry then dirnamePath vpath
  else dirnamePath ((importer).getD "")

/-- Lookup stage of the resolver as described by the spec: exact table key,
else extension candidates for an extensionless path, else not handled. -/
def specLookupStage (files : List (String × String)) (exts : List String)
    (p : String) : Option String :=
  if hasKey files p then some p
  else if extnamePath p = "" then findPathWithExt p exts files
  else none

/-- Modelled from the spec's words: the claim's description of `resolve` —
sentinel check first and unconditionally (bare or same-directory-relative
form), then resolution of the specifier against the selected base directory
by path joining. -/
def resolveIdSpec (entry vpath cwd : String) (exts : List String)
    (files : List (String × String)) (id : String)
    (importer : Option String) : Option String :=
  if id = entry ∨ id = "./" ++ entry then some entry
  else specLookupStage files exts
    (resolvePath (specBaseDir entry vpath cwd importer) id)

/-! ## Post-bundle import/export rewriter (`src/plugins/transform.ts`) -/

/-- Import specifier forms distinguished by `processImportSpecifiers`. -/
inductive ImportSpec where
  | named (localName imported : String)
  | defaultSpec (localName : String)
  | namespaceSpec (localName : String)
deriving DecidableEq, Repr

/-- Payload of a plain top-level declaration (the part an export wrapper
would wrap), kept opaque apart from its bound name and source text. -/
structure PlainDecl where
  name : String
  body : String
deriving DecidableEq, Repr

/-- Top-level statements of the bundled chunk at the granularity the
transform inspects them. -/
inductive Node where
  | importDecl (source : String) (specs : List ImportSpec)
  | exportNamed (wrapped : Option PlainDecl) (specifiers : List String)
  | exportDefault (expr : String)
  | plain (d : PlainDecl)
  | other (payload : String)
deriving DecidableEq, Repr

/-- Oxc AST node type tag of each statement form. -/
def nodeTypeOf : Node → String
  | Node.importDecl _ _ => "ImportDeclaration"
  | Node.exportNamed _ _ => "ExportNamedDeclaration"
  | Node.exportDefault _ => "ExportDefaultDeclaration"
  | Node.plain _ => "VariableDeclaration"
  | Node.other _ => "ExpressionStatement"

/-- Binding line emitted for one import specifier
(`src/plugins/transform.ts` lines 19-36). -/
def emitSpecifier (spec : ImportSpec) (globalVarName : String) : String :=
  match spec with
  | ImportSpec.named localName imported =>
    "const " ++ localName ++ " = " ++ globalVarName ++ "." ++ imported
      ++ ";\n"
  | ImportSpec.defaultSpec localName =>
    "const " ++ localName ++ " = " ++ globalVarName ++ ".default || "
      ++ globalVarName ++ ";\n"
  | ImportSpec.namespaceSpec localName =>
    "const " ++ localName ++ " = " ++ globalVarName ++ ";\n"

/-- Model of `processImportSpecifiers`: concatenate the binding line of each
specifier, in source order. -/
def processImportSpecifiers : List ImportSpec → String → String
  | [], _ => ""
  | s :: rest, g => emitSpecifier s g ++ processImportSpecifiers rest g

/-- Global-reference preamble accumulated over the statement list
(`renderChunk` lines 74-88): only imports whose specifier maps to a truthy
binding contribute. -/
def collectRefs (globals : List (String × String)) : List Node → String
  | [] => ""
  | Node.importDecl source specs :: rest =>
    (match lookupKey globals source with
      | some g => if g = "" then "" else processImportSpecifiers specs g
      | none => "") ++ collectRefs globals rest
  | _ :: rest => collectRefs globals rest

/-- Statement filter of `renderChunk` (lines 74-95): drop every import
declaration and every node whose type tag contains `Export`; keep the
rest. -/
def filterBody : List Node → List Node
  | [] => []
  | n :: rest =>
    match n with
    | Node.importDecl _ _ => filterBody rest
    | _ =>
      if strContainsB (nodeTypeOf n) "Export" then filterBody rest
      else n :: filterBody rest

/-- Text of the fixed trailing statement appended by `renderChunk` (lines
119-122): return a record with `default` bound to `MDXContent` when that
binding is defined and `null` otherwise, and `frontmatter` bound to
`frontmatter` when defined and the empty mapping otherwise. -/
def exportsStatementText : String :=
  "return \x7b\n  default: typeof MDXContent !== \x27undefined\x27 ? MDXContent : null,\n  frontmatter: typeof frontmatter !== \x27undefined\x27 ? frontmatter : \x7b\x7d\n\x7d;"

/-- Result of a successful `renderChunk` run, at statement granularity:
the preamble of global-binding lines, the filtered statement list, and the
fixed trailing return statement. -/
structure RenderedChunk where
  globalReferences : String
  newBody : List Node
  trailing : String
deriving DecidableEq, Repr

/-- Model of the pure core of `renderChunk` on a successfully parsed chunk
(`src/plugins/transform.ts` lines 52-127). -/
def renderChunk (globals : List (String × String)) (body : List Node) :
    RenderedChunk :=
  ⟨collectRefs globals body, filterBody body, exportsStatementText⟩

/-- Join strings with a comma separator. -/
def joinComma : List String → String
  | [] => ""
  | [s] => s
  | s :: rest => s ++ ", " ++ joinComma rest

/-- Source text of one statement, for reassembly of the output string (a
stand-in for the astring code generator, which is an external library). -/
def nodeText : Node → String
  | Node.importDecl source _ => "import ... from \x27" ++ source ++ "\x27;"
  | Node.exportNamed (some d) _ => "export const " ++ d.name ++ " = " ++ d.body ++ ";"
  | Node.exportNamed none specifiers =>
    "export \x7b " ++ joinComma specifiers ++ " \x7d;"
  | Node.exportDefault expr => "export default " ++ expr ++ ";"
  | Node.plain d => "const " ++ d.name ++ " = " ++ d.body ++ ";"
  | Node.other payload => payload

/-- Generated text of a statement list. -/
def generateCode : List Node → String
  | [] => ""
  | [n] => nodeText n
  | n :: rest => nodeText n ++ "\n" ++ generateCode rest

/-- Final output string assembled by `renderChunk` (line 125):
`globalReferences ++ processedCode ++ "\n" ++ exportsStatement`. -/
def renderedCode (r : RenderedChunk) : String :=
  r.globalReferences ++ generateCode r.newBody ++ "\n" ++ r.trailing

/-- Model of the try/catch wrapper around the whole of `renderChunk`
(`src/plugins/transform.ts` lines 52-142): the chunk text is first parsed
(`parsed` is the parse outcome); when parsing throws, the catch block logs
and returns `null` (`none`) — the failure is swallowed inside the plugin —
otherwise the rewritten chunk is produced. -/
def renderChunkSafe (globals : List (String × String))
    (parsed : Except String (List Node)) : Option RenderedChunk :=
  match parsed with
  | Except.ok body => some (renderChunk globals body)
  | Except.error _ => none

/-- Rolldown's contract for a plugin's `renderChunk` result: a `null`
return means "no transformation" and the chunk keeps its original code,
so a swallowed transform failure lets the unrewritten module-style text
flow through as a successful chunk; a non-null return replaces the code
with the rewritten text. -/
def applyTransform (globals : List (String × String))
    (parsed : Except String (List Node)) (originalCode : String) : String :=
  match renderChunkSafe globals parsed with
  | some r => renderedCode r
  | none => originalCode

/-! ## Bundling orchestrator (`src/index.ts`, `bundleMDX`) -/

/-- One artifact of the external bundler's write step: a code chunk or some
other asset. -/
inductive OutputItem where
  | chunk (code : String)
  | asset (name : String)
deriving DecidableEq, Repr

/-- Code of the first output artifact when it is a chunk. -/
def firstChunk : List OutputItem → Option String
  | OutputItem.chunk c :: _ => some c
  | _ => none

/-- Model of the try/catch tail of `bundleMDX` (`src/index.ts` lines
408-445): its input is the outcome of the awaited bundler-and-write call —
either a thrown error (`Except.error`: resolution or compile failures and
write errors, the failures that actually reach this boundary) or an output
list, whose first chunk carries the text produced by `applyTransform`
(transform failures are swallowed upstream inside `renderChunkSafe` and
therefore never appear as an `Except.error` here).  A missing or non-chunk
first artifact raises the sentinel error inside the try block; every
raised error is caught and pushed onto `errors`, leaving `code` as the
empty string. -/
def bundleCollect (res : Except String (List OutputItem)) :
    String × List String :=
  let attempt : Except String String :=
    res.bind fun output =>
      match output with
      | OutputItem.chunk c :: _ => Except.ok c
      | _ => Except.error
          "No chunk generated by Rolldown or unexpected output type"
  match attempt with
  | Except.ok c => (c, [])
  | Except.error e => ("", [e])

/-- Caller-visible state of a `VFile`: its path and value, both strings
(an unset path is the empty string, which is JavaScript-falsy). -/
structure VFileM where
  path : String
  value : String
deriving DecidableEq, Repr

/-- Model of the VFile-source branch of `bundleMDX` (`src/index.ts` lines
105-125): the caller's VFile is used directly (no copy); a falsy path is
replaced by the synthetic `source.mdx` path under `cwd`; the front-matter
splitter (`gray-matter`, an external collaborator abstracted as
`matterContent`) is applied to the original value, and the VFile's value is
overwritten with the stripped body.  The returned record is the final state
the caller observes in their own object after `bundleMDX` returns. -/
def prepareSourceVFile (cwd : String) (matterContent : String → String)
    (source : VFileM) : VFileM :=
  let vfile := source
  let vfile :=
    if vfile.path = "" then
      { vfile with path := resolvePath cwd "source.mdx" }
    else vfile
  { vfile with value := matterContent vfile.value }

/-! ## Runtime component loader (`src/client/jsx.ts`) -/

/-- Runtime JavaScript values, at the granularity the loader inspects them
(only the `typeof` tag and truthiness matter here). -/
inductive JsValue where
  | fn (src : String)
  | str (s : String)
  | num (n : Int)
  | boolean (b : Bool)
  | obj (tag : String)
  | undef
deriving DecidableEq, Repr

/-- JavaScript `typeof`. -/
def typeofJs : JsValue → String
  | JsValue.fn _ => "function"
  | JsValue.str _ => "string"
  | JsValue.num _ => "number"
  | JsValue.boolean _ => "boolean"
  | JsValue.obj _ => "object"
  | JsValue.undef => "undefined"

/-- JavaScript truthiness. -/
def jsTruthy : JsValue → Bool
  | JsValue.fn _ => true
  | JsValue.str s => s ≠ ""
  | JsValue.num n => n ≠ 0
  | JsValue.boolean b => b
  | JsValue.obj _ => true
  | JsValue.undef => false

/-- Semantics of the JavaScript `x || y` expression. -/
def jsOr (x y : JsValue) : JsValue :=
  if jsTruthy x then x else y

/-- Semantics of the JavaScript `x ?? y` expression (`undefined` is the
only nullish value modelled). -/
def jsNullish (x y : JsValue) : JsValue :=
  if x = JsValue.undef then y else x

/-- An anonymous JavaScript function as built by the `Function`
constructor: parameter names plus a body string. -/
structure JsCallable where
  params : List String
  body : String
deriving DecidableEq, Repr

/-- Callable constructed by `getMDXComponent` / `getMDXExport`
(`src/client/jsx.ts` lines 17-24 and 46-51, which build it identically):
`new Function(...Object.keys(scope), ` the body `)` where the body
interpolates the code string after a `return `. -/
def mkEvalCallable {V : Type} (code : String) (scope : List (String × V)) :
    JsCallable :=
  ⟨scope.map Prod.fst, "return " ++ code⟩

/-- Argument list of the call `fn(...Object.values(scope))`. -/
def mkEvalArgs {V : Type} (scope : List (String × V)) : List V :=
  scope.map Prod.snd

/-- Result record of evaluating the rewritten code, as far as
`getMDXComponent` inspects it. -/
structure MdxModule where
  default : JsValue
deriving DecidableEq, Repr

/-- Model of the bounded code prefix `code.slice(0, 200)`. -/
def codePrefix (code : String) : String :=
  ⟨code.data.take 200⟩

/-- Model of the default-export check of `getMDXComponent`
(`src/client/jsx.ts` lines 26-33): a non-callable `default` field raises
the missing-default-export error, whose message interpolates the observed
`typeof` and the first 200 characters of the code string; a callable
`default` is returned. -/
def getComponentCheck (code : String) (m : MdxModule) :
    Except String JsValue :=
  if typeofJs m.default ≠ "function" then
    Except.error
      ("MDX bundled code does not export a default function component.\nReceived: "
        ++ typeofJs m.default ++ "\nCode: " ++ codePrefix code ++ "...")
  else
    Except.ok m.default

/-! ## Framework configuration (`src/framework-config.ts` and the
framework-aware `bundleMDX`) -/

/-- One of the `jsxLib` / `jsxRuntime` / `jsxDom` sub-objects of
`MdxJsxConfig`; each property is optional (absent = the JavaScript property
is not present on the object). -/
structure SubCfg where
  varName : Option String
  package : Option String
deriving DecidableEq, Repr

/-- Model of the `MdxJsxConfig` interface; an absent field is `none`. -/
structure MdxJsxConfig where
  jsxLib : Option SubCfg
  jsxRuntime : Option SubCfg
  jsxDom : Option SubCfg
deriving DecidableEq, Repr

/-- Frameworks supported out of the box. -/
inductive SupportedFramework where
  | react | preact | solid | vue | qwik | hono | svelte
deriving DecidableEq, Repr

/-- Model of the `frameworkConfigs` preset table. -/
def getFrameworkConfig : SupportedFramework → MdxJsxConfig
  | SupportedFramework.react =>
    ⟨some ⟨some "React", some "react"⟩,
     some ⟨some "_jsx", some "react/jsx-runtime"⟩, none⟩
  | SupportedFramework.preact =>
    ⟨some ⟨some "Preact", some "preact"⟩,
     some ⟨some "_jsx", some "preact/jsx-runtime"⟩, none⟩
  | SupportedFramework.solid =>
    ⟨some ⟨some "Solid", some "solid-js"⟩,
     some ⟨some "_jsx", some "solid-js/jsx-runtime"⟩, none⟩
  | SupportedFramework.vue =>
    ⟨some ⟨some "Vue", some "vue"⟩,
     some ⟨some "_jsx", some "vue/jsx-runtime"⟩, none⟩
  | SupportedFramework.qwik =>
    ⟨some ⟨some "Qwik", some "@builder.io/qwik"⟩,
     some ⟨some "_jsx_runtime", some "@builder.io/qwik/jsx-runtime"⟩, none⟩
  | SupportedFramework.hono =>
    ⟨some ⟨some "Hono", some "hono/jsx"⟩,
     some ⟨some "_jsx", some "hono/jsx/jsx-runtime"⟩,
     some ⟨some "HonoDOM", some "hono/jsx/dom"⟩⟩
  | SupportedFramework.svelte =>
    ⟨some ⟨some "Svelte", some "svelte"⟩,
     some ⟨some "_svelte", some "svelte/internal"⟩, none⟩

/-- Conditional insertion of one sub-config into the derived globals
(`deriveGlobals`, `src/framework-config.ts` lines 89-99): the JavaScript
guard `if (sub?.package && sub.varName)` requires both properties present
and truthy (non-empty). -/
def addIfBinding (m : List (String × String)) (sub : Option SubCfg) :
    List (String × String) :=
  match sub with
  | some ⟨some v, some p⟩ => if p ≠ "" ∧ v ≠ "" then setKey m p v else m
  | _ => m

/-- Model of `deriveGlobals` (`src/framework-config.ts` lines 86-102):
insert `jsxLib`, `jsxRuntime`, `jsxDom` bindings in that order. -/
def deriveGlobals (cfg : MdxJsxConfig) : List (String × String) :=
  addIfBinding (addIfBinding (addIfBinding [] cfg.jsxLib) cfg.jsxRuntime)
    cfg.jsxDom

/-- Model of the sub-object spread `\x7b ...fw, ...user \x7d` on one jsx
sub-config: spreading `none` contributes nothing, and properties of `user`
win. -/
def spreadSub (fw user : Option SubCfg) : SubCfg :=
  let a := fw.getD ⟨none, none⟩
  let b := user.getD ⟨none, none⟩
  ⟨b.varName <|> a.varName, b.package <|> a.package⟩

/-- Model of the framework branch of the framework-aware `bundleMDX`
(lines 112-124 of that variant): the effective jsx configuration merges
each of the three sub-configs with the user's properties winning, and the
merged globals spread the caller's explicit `globals` over the
preset-derived ones. -/
def frameworkMerge (fwCfg user : MdxJsxConfig)
    (globals : List (String × String)) :
    MdxJsxConfig × List (String × String) :=
  let frameworkGlobals := deriveGlobals fwCfg
  let activeJsxConfig : MdxJsxConfig :=
    ⟨some (spreadSub fwCfg.jsxLib user.jsxLib),
     some (spreadSub fwCfg.jsxRuntime user.jsxRuntime),
     some (spreadSub fwCfg.jsxDom user.jsxDom)⟩
  (activeJsxConfig, assignAll frameworkGlobals globals)

/-- Optional-chaining read `sub?.varName`. -/
def subVar (o : Option SubCfg) : Option String :=
  match o with
  | some s => s.varName
  | none => none

/-- Optional-chaining read `sub?.package`. -/
def subPkg (o : Option SubCfg) : Option String :=
  match o with
  | some s => s.package
  | none => none

/-! ## Theorems -/

theorem findPathWithExt_eq_find (base : String) (exts : List String)
    (files : List (String × String)) :
    findPathWithExt base exts files
      = (exts.map fun e => base ++ e).find? fun q => hasKey files q := by
  induction exts with
  | nil => rfl
  | cons e rest ih =>
    simp only [findPathWithExt, List.map_cons, List.find?_cons]
    cases h : hasKey files (base ++ e) with
    | true => simp [h]
    | false => simp [h, ih]

theorem chooseBaseDir_eq_specBaseDir (entry vpath cwd : String)
    (importer : Option String) :
    chooseBaseDir entry vpath cwd importer
      = specBaseDir entry vpath cwd importer := by
  cases importer with
  | none => simp [chooseBaseDir, specBaseDir]
  | some s =>
    by_cases h1 : s = ""
    · simp [chooseBaseDir, specBaseDir, h1]
    · by_cases h2 : s = entry
      · simp [chooseBaseDir, specBaseDir, h1, h2]
      · simp [chooseBaseDir, specBaseDir, h1, h2]

/-- C4: for every import specifier whose resolved path is not an exact key
of the virtual file table and has no extension, `resolveId` falls through
to `findPathWithExt`, which appends each configured extension in order and
returns the first augmented path that is a table key. -/
theorem c4_extension_probe (entry vpath cwd : String) (exts : List String)
    (files : List (String × String)) (id : String) (importer : Option String)
    (hs : ¬ (id = entry ∨ id = "./" ++ entry))
    (hk : hasKey files
      (resolvePath (chooseBaseDir entry vpath cwd importer) id) = false)
    (he : extnamePath
      (resolvePath (chooseBaseDir entry vpath cwd importer) id) = "") :
    resolveId entry vpath cwd exts files id importer
      = findPathWithExt
          (resolvePath (chooseBaseDir entry vpath cwd importer) id)
          exts files
    ∧ findPathWithExt
          (resolvePath (chooseBaseDir entry vpath cwd importer) id)
          exts files
      = ((exts.map fun e =>
            resolvePath (chooseBaseDir entry vpath cwd importer) id ++ e).find?
          fun q => hasKey files q) := by
  refine ⟨?_, findPathWithExt_eq_find _ _ _⟩
  unfold resolveId
  rw [if_neg hs]
  simp only [hk, he, Bool.false_eq_true, if_false, eq_self_iff_true, if_true]
  cases findPathWithExt
    (resolvePath (chooseBaseDir entry vpath cwd importer) id) exts files <;>
    rfl

/-- C4 witness: with the table holding both `./x.ts` and `./x.js` under
`/proj` and the default extension order, an import of `./x` satisfies the
hypotheses and resolves to the `.ts` path. -/
theorem c4_extension_probe_witness :
    (¬ ("./x" = "entry.mdx" ∨ "./x" = "./" ++ "entry.mdx")) ∧
    hasKey (processFiles "/proj" [("./x.ts", "a"), ("./x.js", "b")])
      (resolvePath
        (chooseBaseDir "entry.mdx" "/proj/source.mdx" "/proj" none) "./x")
      = false ∧
    extnamePath
      (resolvePath
        (chooseBaseDir "entry.mdx" "/proj/source.mdx" "/proj" none) "./x")
      = "" ∧
    resolveId "entry.mdx" "/proj/source.mdx" "/proj"
      [".tsx", ".ts", ".jsx", ".js", ".mdx", ".json"]
      (processFiles "/proj" [("./x.ts", "a"), ("./x.js", "b")]) "./x" none
      = findPathWithExt
          (resolvePath
            (chooseBaseDir "entry.mdx" "/proj/source.mdx" "/proj" none) "./x")
          [".tsx", ".ts", ".jsx", ".js", ".mdx", ".json"]
          (processFiles "/proj" [("./x.ts", "a"), ("./x.js", "b")]) ∧
    resolveId "entry.mdx" "/proj/source.mdx" "/proj"
      [".tsx", ".ts", ".jsx", ".js", ".mdx", ".json"]
      (processFiles "/proj" [("./x.ts", "a"), ("./x.js", "b")]) "./x" none
      = some "/proj/x.ts" := by
  refine ⟨by decide, by decide, by decide, ?_, by decide⟩
  exact (c4_extension_probe "entry.mdx" "/proj/source.mdx" "/proj"
    [".tsx", ".ts", ".jsx", ".js", ".mdx", ".json"]
    (processFiles "/proj" [("./x.ts", "a"), ("./x.js", "b")]) "./x" none
    (by decide) (by decide) (by decide)).1

/-- C5: the entry-sentinel check of `resolveId` comes first and
unconditionally — a specifier equal to the entry id in bare or
same-directory-relative form returns the entry id — and for every other
specifier the resolver behaves exactly as the spec describes: the base
directory is the working directory without a (usable) importer, the entry
document's directory when the importer is the entry sentinel, the
importer's own directory otherwise, and the specifier is joined onto that
base directory before lookup. -/
theorem c5_sentinel_and_base_dir (entry vpath cwd : String)
    (exts : List String) (files : List (String × String)) (id : String)
    (importer : Option String) :
    resolveId entry vpath cwd exts files id importer
      = resolveIdSpec entry vpath cwd exts files id importer
    ∧ resolveId entry vpath cwd exts files entry importer = some entry
    ∧ resolveId entry vpath cwd exts files ("./" ++ entry) importer
        = some entry := by
  refine ⟨?_, by simp [resolveId], by simp [resolveId]⟩
  by_cases hs : id = entry ∨ id = "./" ++ entry
  · simp [resolveId, resolveIdSpec, hs]
  · unfold resolveId resolveIdSpec specLookupStage
    rw [if_neg hs, if_neg hs, chooseBaseDir_eq_specBaseDir]
    by_cases hk : hasKey files
      (resolvePath (specBaseDir entry vpath cwd importer) id) = true
    · simp [hk]
    · simp only [eq_self_iff_true, hk, if_false,
        Bool.not_eq_true] at hk ⊢
      simp only [hk, Bool.false_eq_true, if_false]
      by_cases he : extnamePath
        (resolvePath (specBaseDir entry vpath cwd importer) id) = ""
      · simp only [he, eq_self_iff_true, if_true]
        cases findPathWithExt
          (resolvePath (specBaseDir entry vpath cwd importer) id) exts
          files <;> rfl
      · simp [he]

theorem strAppendAssoc (a b c : String) : a ++ b ++ c = a ++ (b ++ c) := by
  cases a; cases b; cases c
  show String.mk _ = String.mk _
  rw [List.append_assoc]

theorem mem_filterBody {n : Node} :
    ∀ {body : List Node}, n ∈ filterBody body →
      n ∈ body ∧ strContainsB (nodeTypeOf n) "Export" = false
        ∧ nodeTypeOf n ≠ "ImportDeclaration" := by
  intro body
  induction body with
  | nil => intro h; simp [filterBody] at h
  | cons b rest ih =>
    intro h
    cases b with
    | importDecl s sp =>
      rcases ih h with ⟨h1, h2, h3⟩
      exact ⟨List.mem_cons_of_mem _ h1, h2, h3⟩
    | exportNamed w sp =>
      rcases ih h with ⟨h1, h2, h3⟩
      exact ⟨List.mem_cons_of_mem _ h1, h2, h3⟩
    | exportDefault e =>
      rcases ih h with ⟨h1, h2, h3⟩
      exact ⟨List.mem_cons_of_mem _ h1, h2, h3⟩
    | plain d =>
      have h' : n ∈ Node.plain d :: filterBody rest := h
      rcases List.mem_cons.mp h' with h0 | h0
      · subst h0
        have hne : ("VariableDeclaration" : String) ≠ "ImportDeclaration" := by
          decide
        exact ⟨List.mem_cons_self _ _, rfl, fun hh => hne hh⟩
      · rcases ih h0 with ⟨h1, h2, h3⟩
        exact ⟨List.mem_cons_of_mem _ h1, h2, h3⟩
    | other p =>
      have h' : n ∈ Node.other p :: filterBody rest := h
      rcases List.mem_cons.mp h' with h0 | h0
      · subst h0
        have hne : ("ExpressionStatement" : String) ≠ "ImportDeclaration" := by
          decide
        exact ⟨List.mem_cons_self _ _, rfl, fun hh => hne hh⟩
      · rcases ih h0 with ⟨h1, h2, h3⟩
        exact ⟨List.mem_cons_of_mem _ h1, h2, h3⟩

/-- C2: for every chunk the rewriter successfully processes and every
binding table, the output contains no top-level import declaration and no
top-level export declaration — every statement kept in the body is neither
an import node nor a node whose type tag contains `Export` — and the
assembled output string ends with the fixed appended return statement
(`default` bound to `MDXContent` when defined and `null` otherwise,
`frontmatter` bound to `frontmatter` when defined and the empty mapping
otherwise). -/
theorem c2_rewriter_output (globals : List (String × String))
    (body : List Node) :
    (∀ n ∈ (renderChunk globals body).newBody,
        strContainsB (nodeTypeOf n) "Export" = false
          ∧ nodeTypeOf n ≠ "ImportDeclaration")
    ∧ (renderChunk globals body).trailing = exportsStatementText
    ∧ endsWithStr (renderedCode (renderChunk globals body))
        exportsStatementText := by
  refine ⟨fun n hn => ⟨(mem_filterBody hn).2.1, (mem_filterBody hn).2.2⟩,
    rfl, ?_⟩
  refine ⟨((renderChunk globals body).globalReferences
    ++ (generateCode (renderChunk globals body).newBody ++ "\n")).data, ?_⟩
  simp only [renderedCode, strDataAppend, List.append_assoc,
    List.append_cancel_left_eq]
  rfl

/-- C2 witness: a one-statement chunk, checked at its kept statement. -/
theorem c2_rewriter_output_witness :
    Node.other "const x = 1;" ∈
      (renderChunk [] [Node.other "const x = 1;"]).newBody
    ∧ strContainsB (nodeTypeOf (Node.other "const x = 1;")) "Export" = false
    ∧ nodeTypeOf (Node.other "const x = 1;") ≠ "ImportDeclaration"
    ∧ (renderChunk [] [Node.other "const x = 1;"]).trailing
        = exportsStatementText := by
  refine ⟨by decide, ?_, ?_, (c2_rewriter_output [] [Node.other "const x = 1;"]).2.1⟩
  · exact ((c2_rewriter_output [] [Node.other "const x = 1;"]).1 _ (by decide)).1
  · exact ((c2_rewriter_output [] [Node.other "const x = 1;"]).1 _ (by decide)).2

/-- C3 counterexample: the claim that the rewriter keeps the declaration
wrapped by a top-level export as a plain declaration is false — for the
chunk consisting only of `export const Foo = component`, the rewritten body
is empty: the wrapped declaration is not kept in any form. -/
theorem c3_counterexample :
    Node.plain ⟨"Foo", "component"⟩ ∉
      (renderChunk [] [Node.exportNamed (some ⟨"Foo", "component"⟩) []]).newBody
    ∧ (renderChunk []
        [Node.exportNamed (some ⟨"Foo", "component"⟩) []]).newBody = [] := by
  decide

/-- C3 amended: the rewriter removes every top-level export declaration
from the statement list wholesale — the node is dropped together with any
declaration it wraps, every statement of the output body is a statement of
the input (nothing is unwrapped or added), and the removal is independent
of the binding table. -/
theorem c3_export_removed (globals g2 : List (String × String))
    (body : List Node) :
    (∀ n ∈ (renderChunk globals body).newBody,
        n ∈ body ∧ strContainsB (nodeTypeOf n) "Export" = false)
    ∧ (renderChunk globals body).newBody = (renderChunk g2 body).newBody :=
  ⟨fun _ hn => ⟨(mem_filterBody hn).1, (mem_filterBody hn).2.1⟩, rfl⟩

/-- C3 amended witness: a kept statement of a two-statement chunk is a
statement of the input and is not an export node. -/
theorem c3_export_removed_witness :
    Node.plain ⟨"x", "1"⟩ ∈
      (renderChunk []
        [Node.exportDefault "MDXContent", Node.plain ⟨"x", "1"⟩]).newBody
    ∧ Node.plain ⟨"x", "1"⟩ ∈
        [Node.exportDefault "MDXContent", Node.plain ⟨"x", "1"⟩]
    ∧ strContainsB (nodeTypeOf (Node.plain ⟨"x", "1"⟩)) "Export" = false := by
  refine ⟨by decide, ?_, ?_⟩
  · exact ((c3_export_removed [] [("a", "b")]
      [Node.exportDefault "MDXContent", Node.plain ⟨"x", "1"⟩]).1 _
        (by decide)).1
  · exact ((c3_export_removed [] [("a", "b")]
      [Node.exportDefault "MDXContent", Node.plain ⟨"x", "1"⟩]).1 _
        (by decide)).2

theorem processImportSpecifiers_append (a b : List ImportSpec) (g : String) :
    processImportSpecifiers (a ++ b) g
      = processImportSpecifiers a g ++ processImportSpecifiers b g := by
  induction a with
  | nil => rfl
  | cons s rest ih =>
    show emitSpecifier s g ++ processImportSpecifiers (rest ++ b) g = _
    rw [ih, ← strAppendAssoc]
    rfl

/-- C6 counterexample: the claim that the rewriter emits
`local = B.default ?? B` for a default import is false — the emitted
binding uses `||`, and the two operators disagree on a present-but-falsy
`default` field. -/
theorem c6_counterexample :
    processImportSpecifiers [ImportSpec.defaultSpec "localName"] "B"
        ≠ "const localName = B.default ?? B;\n"
    ∧ processImportSpecifiers [ImportSpec.defaultSpec "localName"] "B"
        = "const localName = B.default || B;\n"
    ∧ jsOr (JsValue.boolean false) (JsValue.obj "B")
        ≠ jsNullish (JsValue.boolean false) (JsValue.obj "B") := by
  decide

/-- C6 amended: for every default-import specifier of an import bound to
`B`, the rewriter emits the binding `const local = B.default || B;` — the
local name receives `B.default` when that field is truthy and `B` itself
otherwise — at the specifier's position in the emitted preamble. -/
theorem c6_default_import_binding (g localName : String)
    (pre post : List ImportSpec) :
    processImportSpecifiers (pre ++ ImportSpec.defaultSpec localName :: post) g
      = processImportSpecifiers pre g
        ++ ("const " ++ localName ++ " = " ++ g ++ ".default || " ++ g
              ++ ";\n")
        ++ processImportSpecifiers post g
    ∧ (∀ dflt fallback : JsValue, jsTruthy dflt = true →
        jsOr dflt fallback = dflt)
    ∧ (∀ dflt fallback : JsValue, jsTruthy dflt = false →
        jsOr dflt fallback = fallback) := by
  refine ⟨?_, fun d f h => by simp [jsOr, h], fun d f h => by simp [jsOr, h]⟩
  rw [processImportSpecifiers_append, strAppendAssoc]
  rfl

/-- C6 amended witness: one default import bound to the global `B`, with
the fallback semantics checked on a truthy and a falsy `default`. -/
theorem c6_default_import_binding_witness :
    processImportSpecifiers [ImportSpec.defaultSpec "Demo"] "B"
      = "const Demo = B.default || B;\n"
    ∧ jsTruthy (JsValue.fn "f") = true
    ∧ jsOr (JsValue.fn "f") (JsValue.obj "ns") = JsValue.fn "f"
    ∧ jsTruthy JsValue.undef = false
    ∧ jsOr JsValue.undef (JsValue.obj "ns") = JsValue.obj "ns" := by
  refine ⟨?_, by decide, ?_, by decide, ?_⟩
  · exact ((c6_default_import_binding "B" "Demo" [] []).1).trans (by decide)
  · exact (c6_default_import_binding "B" "Demo" [] []).2.1 _ _ (by decide)
  · exact (c6_default_import_binding "B" "Demo" [] []).2.2 _ _ (by decide)

/-- C7 counterexample: the claim that the constructed callable's body is
the code string itself is false — the loader interpolates the code after a
`return` keyword. -/
theorem c7_counterexample :
    (mkEvalCallable "42" ([] : List (String × Nat))).body ≠ "42"
    ∧ (mkEvalCallable "42" ([] : List (String × Nat))).body = "return 42" := by
  decide

/-- C7 amended: the loader constructs a callable whose parameter names are
exactly the scope's keys in mapping order, whose body is the code string
prefixed with `return `, and invokes it with the corresponding scope values
in the same order (zipping the parameters with the arguments recovers the
scope mapping). -/
theorem c7_eval_callable {V : Type} (code : String)
    (scope : List (String × V)) :
    (mkEvalCallable code scope).params = scope.map Prod.fst
    ∧ mkEvalArgs scope = scope.map Prod.snd
    ∧ (mkEvalCallable code scope).body = "return " ++ code
    ∧ (mkEvalCallable code scope).params.zip (mkEvalArgs scope) = scope := by
  refine ⟨rfl, rfl, rfl, ?_⟩
  show (scope.map Prod.fst).zip (scope.map Prod.snd) = scope
  induction scope with
  | nil => rfl
  | cons p rest ih => simp [ih]

/-- C8: when the evaluation result's `default` field is not a callable,
`getMDXComponent` fails with the missing-default-export error whose message
contains the observed runtime type and a bounded (at most 200 characters)
prefix of the code string; when the field is a callable, that callable is
returned. -/
theorem c8_default_export_check (code : String) (m : MdxModule) :
    (typeofJs m.default ≠ "function" →
      ∃ msg, getComponentCheck code m = Except.error msg
        ∧ containsStr msg (typeofJs m.default)
        ∧ containsStr msg (codePrefix code)
        ∧ (codePrefix code).length ≤ 200)
    ∧ (typeofJs m.default = "function" →
        getComponentCheck code m = Except.ok m.default) := by
  constructor
  · intro h
    refine ⟨"MDX bundled code does not export a default function component.\nReceived: "
        ++ typeofJs m.default ++ "\nCode: " ++ codePrefix code ++ "...",
      ?_, ?_, ?_, ?_⟩
    · unfold getComponentCheck
      rw [if_pos h]
    · exact ⟨("MDX bundled code does not export a default function component.\nReceived: " : String).data,
        ("\nCode: " ++ codePrefix code ++ "...").data,
        by simp [strDataAppend, List.append_assoc]⟩
    · exact ⟨(("MDX bundled code does not export a default function component.\nReceived: "
          ++ typeofJs m.default ++ "\nCode: " : String)).data,
        ("..." : String).data,
        by simp [strDataAppend, List.append_assoc]⟩
    · show (code.data.take 200).length ≤ 200
      exact List.length_take_le 200 code.data
  · intro h
    unfold getComponentCheck
    rw [if_neg (by simp [h])]

/-- C8 witness: a result whose `default` field is the number `3` fails the
check with a diagnosable message, at the code string `abc`. -/
theorem c8_default_export_check_witness :
    typeofJs (MdxModule.mk (JsValue.num 3)).default ≠ "function"
    ∧ (∃ msg,
        getComponentCheck "abc" (MdxModule.mk (JsValue.num 3))
          = Except.error msg
        ∧ containsStr msg (typeofJs (MdxModule.mk (JsValue.num 3)).default)
        ∧ containsStr msg (codePrefix "abc")
        ∧ (codePrefix "abc").length ≤ 200) :=
  ⟨by decide,
    (c8_default_export_check "abc" (MdxModule.mk (JsValue.num 3))).1
      (by decide)⟩

theorem lookupKey_setKey (m : List (String × String)) (k v k' : String) :
    lookupKey (setKey m k v) k'
      = if k' = k then some v else lookupKey m k' := by
  induction m with
  | nil =>
    by_cases h : k' = k
    · subst h; simp [setKey, lookupKey]
    · have h2 : ¬ (k = k') := fun hh => h hh.symm
      simp [setKey, lookupKey, h, h2]
  | cons p rest ih =>
    rcases p with ⟨k0, v0⟩
    by_cases h0 : k0 = k
    · subst h0
      by_cases h : k' = k0
      · subst h; simp [setKey, lookupKey]
      · have h2 : ¬ (k0 = k') := fun hh => h hh.symm
        simp [setKey, lookupKey, h, h2]
    · by_cases h : k0 = k'
      · subst h
        have h2 : ¬ (k0 = k) := h0
        simp [setKey, lookupKey, h0, h2]
      · simp [setKey, lookupKey, h0, h, ih]

theorem lookupKey_eq_none (m : List (String × String)) (k : String)
    (h : k ∉ m.map Prod.fst) : lookupKey m k = none := by
  induction m with
  | nil => rfl
  | cons p rest ih =>
    rcases p with ⟨k0, v0⟩
    simp only [List.map_cons, List.mem_cons] at h
    push_neg at h
    have : ¬ (k0 = k) := fun hh => h.1 hh.symm
    simp [lookupKey, this, ih h.2]

theorem lookupKey_assignAll (a b : List (String × String)) (k : String)
    (hb : (b.map Prod.fst).Nodup) :
    lookupKey (assignAll a b) k
      = match lookupKey b k with
        | some v => some v
        | none => lookupKey a k := by
  induction b generalizing a with
  | nil => rfl
  | cons p rest ih =>
    rcases p with ⟨k1, v1⟩
    simp only [List.map_cons, List.nodup_cons] at hb
    have step : assignAll a ((k1, v1) :: rest)
        = assignAll (setKey a k1 v1) rest := rfl
    rw [step, ih (setKey a k1 v1) hb.2, lookupKey_setKey]
    by_cases h : k = k1
    · subst h
      rw [lookupKey_eq_none rest k hb.1]
      simp [lookupKey]
    · have hne : ¬ (k1 = k) := fun hh => h hh.symm
      simp only [lookupKey, hne, if_neg h, if_false]

theorem spreadSub_proj (a b : Option SubCfg) :
    (spreadSub a b).varName = (subVar b <|> subVar a)
    ∧ (spreadSub a b).package = (subPkg b <|> subPkg a) := by
  cases a <;> cases b <;> exact ⟨rfl, rfl⟩

/-- C9: for every framework preset configuration and caller-supplied
explicit configuration, the merged global-binding table looks up as the
union of preset-derived and explicit bindings with explicit entries winning
on every conflicting specifier, and the effective jsx configuration
overrides preset values field by field — each of the `jsxLib`,
`jsxRuntime`, `jsxDom` sub-properties independently takes the user's value
when present and the preset's otherwise. -/
theorem c9_framework_merge (fwCfg user : MdxJsxConfig)
    (globals : List (String × String)) (k : String)
    (hg : (globals.map Prod.fst).Nodup) :
    (lookupKey (frameworkMerge fwCfg user globals).2 k
      = match lookupKey globals k with
        | some v => some v
        | none => lookupKey (deriveGlobals fwCfg) k)
    ∧ subVar (frameworkMerge fwCfg user globals).1.jsxLib
        = (subVar user.jsxLib <|> subVar fwCfg.jsxLib)
    ∧ subPkg (frameworkMerge fwCfg user globals).1.jsxLib
        = (subPkg user.jsxLib <|> subPkg fwCfg.jsxLib)
    ∧ subVar (frameworkMerge fwCfg user globals).1.jsxRuntime
        = (subVar user.jsxRuntime <|> subVar fwCfg.jsxRuntime)
    ∧ subPkg (frameworkMerge fwCfg user globals).1.jsxRuntime
        = (subPkg user.jsxRuntime <|> subPkg fwCfg.jsxRuntime)
    ∧ subVar (frameworkMerge fwCfg user globals).1.jsxDom
        = (subVar user.jsxDom <|> subVar fwCfg.jsxDom)
    ∧ subPkg (frameworkMerge fwCfg user globals).1.jsxDom
        = (subPkg user.jsxDom <|> subPkg fwCfg.jsxDom) :=
  ⟨lookupKey_assignAll _ _ _ hg,
    (spreadSub_proj _ _).1, (spreadSub_proj _ _).2,
    (spreadSub_proj _ _).1, (spreadSub_proj _ _).2,
    (spreadSub_proj _ _).1, (spreadSub_proj _ _).2⟩

/-- C9 witness: the react preset merged with a user override of the
`jsxLib` variable name and an explicit global for `react`: the explicit
global wins and the user's `varName` overrides while the preset's
`package` survives. -/
theorem c9_framework_merge_witness :
    (([("react", "R")].map (Prod.fst (α := String) (β := String))).Nodup)
    ∧ lookupKey
        (frameworkMerge (getFrameworkConfig SupportedFramework.react)
          (MdxJsxConfig.mk (some (SubCfg.mk (some "MyReact") none)) none none)
          [("react", "R")]).2 "react" = some "R"
    ∧ subVar
        (frameworkMerge (getFrameworkConfig SupportedFramework.react)
          (MdxJsxConfig.mk (some (SubCfg.mk (some "MyReact") none)) none none)
          [("react", "R")]).1.jsxLib = some "MyReact"
    ∧ subPkg
        (frameworkMerge (getFrameworkConfig SupportedFramework.react)
          (MdxJsxConfig.mk (some (SubCfg.mk (some "MyReact") none)) none none)
          [("react", "R")]).1.jsxLib = some "react" := by
  refine ⟨by decide, ?_, ?_, ?_⟩
  · exact ((c9_framework_merge (getFrameworkConfig SupportedFramework.react)
      (MdxJsxConfig.mk (some (SubCfg.mk (some "MyReact") none)) none none)
      [("react", "R")] "react" (by decide)).1).trans (by decide)
  · exact ((c9_framework_merge (getFrameworkConfig SupportedFramework.react)
      (MdxJsxConfig.mk (some (SubCfg.mk (some "MyReact") none)) none none)
      [("react", "R")] "react" (by decide)).2.1).trans (by decide)
  · exact ((c9_framework_merge (getFrameworkConfig SupportedFramework.react)
      (MdxJsxConfig.mk (some (SubCfg.mk (some "MyReact") none)) none none)
      [("react", "R")] "react" (by decide)).2.2.1).trans (by decide)

/-- C10: when `bundleMDX` receives a VFile source, the caller's VFile is
mutated in place — the state the caller observes after the call has the
synthetic `source.mdx` path under `cwd` substituted for a falsy path, and
its value overwritten with the front-matter-stripped body; in particular
whenever stripping changes the text, the original document text is not
restored before `bundleMDX` returns. -/
theorem c10_vfile_mutation (cwd : String) (matterContent : String → String)
    (source : VFileM) :
    (prepareSourceVFile cwd matterContent source).value
        = matterContent source.value
    ∧ (prepareSourceVFile cwd matterContent source).path
        = (if source.path = "" then resolvePath cwd "source.mdx"
           else source.path)
    ∧ (matterContent source.value ≠ source.value →
        (prepareSourceVFile cwd matterContent source).value
          ≠ source.value) := by
  refine ⟨?_, ?_, ?_⟩
  · unfold prepareSourceVFile
    by_cases h : source.path = "" <;> simp [h]
  · unfold prepareSourceVFile
    by_cases h : source.path = "" <;> simp [h]
  · intro hne
    unfold prepareSourceVFile
    by_cases h : source.path = "" <;> simpa [h] using hne

/-- C10 witness: a VFile with an unset path and a document whose stripped
body differs from the original text. -/
theorem c10_vfile_mutation_witness :
    (prepareSourceVFile "/proj" (fun _ => "stripped")
        (VFileM.mk "" "orig")).value = "stripped"
    ∧ (prepareSourceVFile "/proj" (fun _ => "stripped")
        (VFileM.mk "" "orig")).path = "/proj/source.mdx"
    ∧ (prepareSourceVFile "/proj" (fun _ => "stripped")
        (VFileM.mk "" "orig")).value ≠ "orig" := by
  refine ⟨?_, ?_, ?_⟩
  · exact (c10_vfile_mutation "/proj" (fun _ => "stripped")
      (VFileM.mk "" "orig")).1
  · exact ((c10_vfile_mutation "/proj" (fun _ => "stripped")
      (VFileM.mk "" "orig")).2.1).trans (by decide)
  · exact (c10_vfile_mutation "/proj" (fun _ => "stripped")
      (VFileM.mk "" "orig")).2.2 (by decide)

/-- C1 counterexample, refuting two parts of the claim at concrete
inputs.  First, a transform failure is not returned in the errors list:
when the rewriter's parse step throws, `renderChunk` catches internally
and returns `null`, rolldown keeps the chunk's original code, and the
invocation succeeds — the returned result carries the unrewritten
module-style text with an empty errors list, not a failure record.
Second, the claimed invariant — exactly one of code non-empty / errors
non-empty in every returned result — fails when the bundler succeeds with
a first-position chunk whose code text is empty: both components are then
empty, so neither the success shape nor the failure shape holds. -/
theorem c1_counterexample :
    renderChunkSafe [] (Except.error "Unexpected token") = none
    ∧ (bundleCollect (Except.ok
        [OutputItem.chunk
          (applyTransform [] (Except.error "Unexpected token")
            "import x from \x27pkg\x27;")])).1
        = "import x from \x27pkg\x27;"
    ∧ (bundleCollect (Except.ok
        [OutputItem.chunk
          (applyTransform [] (Except.error "Unexpected token")
            "import x from \x27pkg\x27;")])).2 = []
    ∧ ¬ ((((bundleCollect (Except.ok [OutputItem.chunk ""])).1 ≠ "")
          ∧ (bundleCollect (Except.ok [OutputItem.chunk ""])).2 = [])
        ∨ (((bundleCollect (Except.ok [OutputItem.chunk ""])).1 = "")
          ∧ (bundleCollect (Except.ok [OutputItem.chunk ""])).2 ≠ [])) := by
  refine ⟨rfl, rfl, rfl, by decide⟩

/-- C1 amended: `bundleMDX` catches every failure that is thrown during
bundling — resolution and compile errors and the zero-chunk /
non-chunk-first sentinel — and returns it as a record in the result's
errors list instead of throwing: a thrown bundler error yields `code`
empty with that error as the sole entry, a missing or non-chunk first
artifact yields `code` empty with a non-empty errors list, and a
first-position chunk yields its code with no errors.  Transform failures
never reach this boundary: the rewriter swallows them (`renderChunk`
catches internally and returns `null`, a no-op for rolldown), so the
invocation succeeds with the unrewritten chunk text and an empty errors
list.  Finally `code` and `errors` are never both non-empty, so exactly
one of code non-empty / errors non-empty holds whenever the invocation
fails or the first chunk's code is non-empty. -/
theorem c1_error_channel (res : Except String (List OutputItem)) :
    (∀ e, res = Except.error e → bundleCollect res = ("", [e]))
    ∧ (∀ c rest, res = Except.ok (OutputItem.chunk c :: rest) →
        bundleCollect res = (c, []))
    ∧ (∀ out, res = Except.ok out → firstChunk out = none →
        (bundleCollect res).1 = "" ∧ (bundleCollect res).2 ≠ [])
    ∧ ¬ ((bundleCollect res).1 ≠ "" ∧ (bundleCollect res).2 ≠ [])
    ∧ (∀ c rest, res = Except.ok (OutputItem.chunk c :: rest) → c ≠ "" →
        (bundleCollect res).1 ≠ "" ∧ (bundleCollect res).2 = [])
    ∧ (∀ (globals : List (String × String)) (e origCode : String),
        renderChunkSafe globals (Except.error e) = none
        ∧ applyTransform globals (Except.error e) origCode = origCode)
    ∧ (∀ (globals : List (String × String)) (e origCode : String)
          (rest : List OutputItem),
        bundleCollect (Except.ok (OutputItem.chunk
            (applyTransform globals (Except.error e) origCode) :: rest))
          = (origCode, [])) := by
  refine ⟨?_, ?_, ?_, ?_, ?_, fun g e oc => ⟨rfl, rfl⟩,
    fun g e oc rest => rfl⟩
  · intro e h; subst h; rfl
  · intro c rest h; subst h; rfl
  · intro out h hfc; subst h
    cases out with
    | nil => exact ⟨rfl, by simp [bundleCollect, Except.bind]⟩
    | cons i r =>
      cases i with
      | chunk c => simp [firstChunk] at hfc
      | asset nm => exact ⟨rfl, by simp [bundleCollect, Except.bind]⟩
  · cases res with
    | error e => simp [bundleCollect, Except.bind]
    | ok out =>
      cases out with
      | nil => simp [bundleCollect, Except.bind]
      | cons i r =>
        cases i with
        | chunk c => simp [bundleCollect, Except.bind]
        | asset nm => simp [bundleCollect, Except.bind]
  · intro c rest h hc; subst h
    exact ⟨hc, rfl⟩

/-- C1 amended witness: a thrown bundler failure is returned in the errors
list with an empty code string, and a swallowed transform failure lets the
original chunk text flow through as a successful result with no errors. -/
theorem c1_error_channel_witness :
    bundleCollect (Except.error "resolution failed") =
      ("", ["resolution failed"])
    ∧ applyTransform [] (Except.error "Unexpected token")
        "import x from \x27pkg\x27;" = "import x from \x27pkg\x27;"
    ∧ bundleCollect (Except.ok [OutputItem.chunk
        (applyTransform [] (Except.error "Unexpected token")
          "import x from \x27pkg\x27;")])
      = ("import x from \x27pkg\x27;", []) :=
  ⟨(c1_error_channel (Except.error "resolution failed")).1
      "resolution failed" rfl,
    ((c1_error_channel (Except.error "resolution failed")).2.2.2.2.2.1
      [] "Unexpected token" "import x from \x27pkg\x27;").2,
    (c1_error_channel (Except.error "resolution failed")).2.2.2.2.2.2
      [] "Unexpected token" "import x from \x27pkg\x27;" []⟩

end RolldownMdx

